import Mathlib

/-!
# Verification of the Solar Guitars zero-price crawler

A shallow embedding of `solar_crowler.py` and proofs about it.

Conventions of the embedding:
* Python strings are Lean `String`s; `str.strip()` is `pyStrip`,
  `str.split()` (no argument: split on whitespace runs, dropping empty
  tokens) is `pySplitWs`, and single-character `str.replace(c, "")`
  calls are modelled by filtering that character out of the string.
* `float(s)` is modelled by `pyFloat : String → Option ℚ`, covering the
  grammar of optionally signed decimal literals (digits with an optional
  single decimal point); `none` stands for the `ValueError` that
  `float` raises on any other input.  Exponents, underscores, `inf` and
  `nan` are outside the model; none of the inputs considered here use
  them.  Prices are exact rationals, so equality with `0.0` in the code
  is equality with `0 : ℚ` here (a decimal literal parses to `0.0`
  exactly when its value is the rational zero).
* `int(s)` is `pyInt : String → Option ℤ` (whitespace-stripped,
  optionally signed digit strings); `none` stands for `ValueError`.
* Python exceptions that can escape the modelled fragments are the
  constructors of `PyErr`, and fallible functions return
  `Except PyErr α`.
* A Selenium element that may be absent (`find_element` raising
  `NoSuchElementException`) is an `Option` field; when the element is
  present the relevant attribute or text is the carried `String`.
-/

deriving instance DecidableEq for Except

namespace SolarCrawler

/-- Exceptions that can escape the fragments of the program we model:
`NoSuchElementException` (a lookup error from `find_element`),
`TimeoutException` (from `WebDriverWait`), and `ValueError`
(from `float()` / `int()`). -/
inductive PyErr where
  | noSuchElement
  | timeoutException
  | valueError
deriving DecidableEq, Repr

/-- Model of Python `str.strip()`: drop leading and trailing whitespace. -/
def pyStrip (s : String) : String :=
  String.mk (((s.toList.dropWhile Char.isWhitespace).reverse.dropWhile
    Char.isWhitespace).reverse)

/-- Helper for `pySplitWs`: accumulate the current token (reversed). -/
def pySplitAux : List Char → List Char → List (List Char)
  | [], acc => if acc = [] then [] else [acc.reverse]
  | c :: cs, acc =>
    if Char.isWhitespace c then
      if acc = [] then pySplitAux cs []
      else acc.reverse :: pySplitAux cs []
    else pySplitAux cs (c :: acc)

/-- Model of Python `str.split()` with no argument: split on runs of
whitespace, never producing empty tokens. -/
def pySplitWs (cs : List Char) : List (List Char) :=
  pySplitAux cs []

/-- Numeric value of a digit string (most significant first). -/
def digitsVal (cs : List Char) : ℕ :=
  cs.foldl (fun a c => 10 * a + (c.toNat - 48)) 0

/-- All characters are ASCII digits. -/
def allDigits (cs : List Char) : Bool :=
  cs.all Char.isDigit

/-- Parse an unsigned decimal literal: digits with at most one decimal
point and at least one digit overall.  Returns the value as a
numerator/denominator pair `(n, d)` standing for `n / d`, with `d` a
power of ten (kept unreduced so that the rational is built in one
`mkRat` step). -/
def parseUnsigned (cs : List Char) : Option (ℕ × ℕ) :=
  let intPart := cs.takeWhile (fun c => c ≠ '.')
  let rest := cs.dropWhile (fun c => c ≠ '.')
  match rest with
  | [] =>
    if intPart ≠ [] ∧ allDigits intPart then some (digitsVal intPart, 1)
    else none
  | _ :: frac =>
    if frac.contains '.' then none
    else if intPart = [] ∧ frac = [] then none
    else if allDigits intPart ∧ allDigits frac then
      some (digitsVal (intPart ++ frac), 10 ^ frac.length)
    else none

/-- Model of Python `float(s)` restricted to plain decimal literals:
`some q` when `float` succeeds with exact value `q`, `none` when it
raises `ValueError`. -/
def pyFloat (s : String) : Option ℚ :=
  match s.toList with
  | [] => none
  | c :: cs =>
    if c = '+' then (parseUnsigned cs).map (fun p => mkRat p.1 p.2)
    else if c = '-' then (parseUnsigned cs).map (fun p => mkRat (-(p.1 : ℤ)) p.2)
    else (parseUnsigned (c :: cs)).map (fun p => mkRat p.1 p.2)

/-- Model of Python `int(s)`: strip whitespace, optional sign, digits. -/
def pyInt (s : String) : Option ℤ :=
  match (pyStrip s).toList with
  | '+' :: rest =>
    if rest ≠ [] ∧ allDigits rest then some (digitsVal rest : ℤ) else none
  | '-' :: rest =>
    if rest ≠ [] ∧ allDigits rest then some (-(digitsVal rest : ℤ)) else none
  | cs =>
    if cs ≠ [] ∧ allDigits cs then some (digitsVal cs : ℤ) else none

/-- Python truthiness of an optional string (`None` and `""` are falsy). -/
def pyTruthy : Option String → Bool
  | none => false
  | some s => s ≠ ""

/-- `text.replace(",", "")`: drop all commas. -/
def dropCommas (s : String) : String :=
  String.mk (s.toList.filter (fun c => c ≠ ','))

/-- `text.replace("€", "").replace("$", "").replace(",", "")`:
drop currency symbols and thousands separators. -/
def stripCurrency (s : String) : List Char :=
  s.toList.filter (fun c => c ≠ '€' ∧ c ≠ '$' ∧ c ≠ ',')

/-! ## JSON values and listings -/

/-- JSON values, the contents of the results file.  Objects are
association lists; `json.loads` gives Python dicts, where a duplicate
key keeps the last binding, so lookup is last-wins. -/
inductive JVal where
  | null
  | bool (b : Bool)
  | num (q : ℚ)
  | str (s : String)
  | arr (items : List JVal)
  | obj (fields : List (String × JVal))

/-- Python `dict.get` on a JSON object (last binding wins, as in
`json.loads`). -/
def jGet (fields : List (String × JVal)) (k : String) : Option JVal :=
  ((fields.filter (fun p => p.1 = k)).getLast?).map (fun p => p.2)

/-- The `"link"` field of a stored entry, when the entry is an object
and the field holds a string; `none` otherwise. -/
def entryLink : JVal → Option String
  | .obj fields =>
    match jGet fields "link" with
    | some (.str s) => some s
    | _ => none
  | _ => none

/-- The `Listing` dataclass. -/
structure Listing where
  title : String
  price_text : String
  link : String
deriving DecidableEq, Repr

/-- `Listing.to_dict`. -/
def Listing.to_dict (l : Listing) : JVal :=
  .obj [("title", .str l.title), ("price", .str l.price_text),
        ("link", .str l.link)]

/-! ## Listing extraction (`_read_price_value`, `extract_listing_info`)

A product tile is modelled by the four sub-element lookups the
extractor can perform.  A field is `none` when `find_element` on the
corresponding selector raises `NoSuchElementException`; when present it
carries the text (for `.price_for_filter` the `textContent` attribute,
for `.wcpbc-price` and `.item-compare-title` the `.text` property, for
`a.totallink` the `href` attribute). -/

structure Tile where
  hidden : Option String
  visible : Option String
  linkHref : Option String
  titleText : Option String
deriving DecidableEq, Repr

/-- `_read_price_value` (lines 186-213): the hidden `.price_for_filter`
text, stripped, is parsed as the authoritative value when non-empty
(an unparseable non-empty hidden text raises `ValueError`, since only
`NoSuchElementException` is caught); otherwise the visible
`.wcpbc-price` text is stripped of currency symbols and commas, split
on whitespace, and the last token parsed (again, a parse failure raises
`ValueError`). -/
def read_price_value (hidden visible : Option String) :
    Except PyErr (Option String × Option ℚ) := do
  let pv1 : Option ℚ ←
    match hidden with
    | none => pure none
    | some h0 =>
      let hiddenText := pyStrip h0
      if hiddenText = "" then pure none
      else
        match pyFloat (dropCommas hiddenText) with
        | some v => pure (some v)
        | none => throw PyErr.valueError
  match visible with
  | none => pure (none, pv1)
  | some v0 =>
    let price_text := pyStrip v0
    if pv1 = none ∧ price_text ≠ "" then
      let numeric := pySplitWs (stripCurrency price_text)
      match numeric.getLast? with
      | none => pure (some price_text, pv1)
      | some tok =>
        match pyFloat (String.mk tok) with
        | some v => pure (some price_text, some v)
        | none => throw PyErr.valueError
    else pure (some price_text, pv1)

/-- The displayed price text: `price_text or "€0.00"`. -/
def displayedPrice : Option String → String
  | none => "€0.00"
  | some s => if s = "" then "€0.00" else s

/-- `extract_listing_info` (lines 216-228): resolve the price; tiles
whose value is undetermined or non-zero yield `none`; qualifying tiles
look up `a.totallink` and `.item-compare-title`, whose absence raises
`NoSuchElementException`. -/
def extract_listing_info (t : Tile) : Except PyErr (Option Listing) := do
  let pr ← read_price_value t.hidden t.visible
  if pr.2 = none ∨ pr.2 ≠ some 0 then
    pure none
  else
    match t.linkHref with
    | none => throw PyErr.noSuchElement
    | some href =>
      match t.titleText with
      | none => throw PyErr.noSuchElement
      | some ttl =>
        pure (some ⟨pyStrip ttl, displayedPrice pr.1, href⟩)

/-! ## Page fetching (`collect_free_listings_on_url`) -/

/-- Outcome of the `driver.get(url)` navigation call. -/
inductive NavOutcome where
  | ok
  | timeout
  | navError
deriving DecidableEq, Repr

/-- One URL's fetch, as the fetching code can observe it: the outcome
of navigation, whether the `ul.listing-products` container appears
within the `WebDriverWait` timeout, and the product tiles found after
scrolling. -/
structure PageLoad where
  nav : NavOutcome
  containerAppears : Bool
  tiles : List Tile

/-- The extraction loop over the tiles of a page (lines 244-249): an
exception from `extract_listing_info` propagates, aborting the loop. -/
def extract_all (tiles : List Tile) : Except PyErr (List Listing) :=
  match tiles with
  | [] => pure []
  | t :: ts => do
    let r ← extract_listing_info t
    let rest ← extract_all ts
    match r with
    | some l => pure (l :: rest)
    | none => pure rest

/-- `collect_free_listings_on_url` (lines 231-250): only the
`driver.get` call is inside the `try`; a `TimeoutException` or other
`WebDriverException` there is caught and yields `[]`.
`wait_for_listings` runs after the `try` block, so the
`TimeoutException` it raises when the container never appears is not
caught. -/
def collect_free_listings_on_url (p : PageLoad) : Except PyErr (List Listing) :=
  match p.nav with
  | .timeout => pure []
  | .navError => pure []
  | .ok =>
    if p.containerAppears then extract_all p.tiles
    else throw PyErr.timeoutException

/-- The fetch loop of `main` (lines 264-272): collect every page in
order, concatenating the results; an uncaught exception aborts the
whole run. -/
def runCollect : List PageLoad → Except PyErr (List Listing)
  | [] => pure []
  | p :: ps => do
    let l ← collect_free_listings_on_url p
    let r ← runCollect ps
    pure (l ++ r)

/-! ## Result store (`load_existing_results`, `save_results`) -/

/-- What reading the results file can observe: the file is missing,
unreadable (`OSError`), not valid JSON (`JSONDecodeError`), or holds a
JSON value. -/
inductive FileState where
  | missing
  | unreadable
  | invalid
  | content (j : JVal)

/-- The deduplication loop of `load_existing_results` (lines 58-68):
walk the parsed list, keep the first entry for each link, drop entries
that are not objects or whose `link` is not a non-empty string; thread
the set of links seen so far (a list used only for membership). -/
def dedupLoop : List JVal → List String → List JVal × List String
  | [], links => ([], links)
  | e :: rest, links =>
    match entryLink e with
    | none => dedupLoop rest links
    | some l =>
      if l = "" ∨ l ∈ links then dedupLoop rest links
      else
        let p := dedupLoop rest (l :: links)
        (e :: p.1, p.2)

/-- `load_existing_results` (lines 47-68): missing file, an unreadable
file, unparseable JSON, or JSON that is not a list all yield the empty
collection (the exceptions are caught); a JSON list is deduplicated by
link.  Returns the stored entries and the set of known links. -/
def load_existing_results : FileState → List JVal × List String
  | .missing => ([], [])
  | .unreadable => ([], [])
  | .invalid => ([], [])
  | .content (.arr data) => dedupLoop data []
  | .content _ => ([], [])

/-- `save_results` (lines 71-73): overwrite the file with the entries
as a JSON array (`json.dumps` succeeds on every entry we store). -/
def save_results (entries : List JVal) : FileState :=
  .content (.arr entries)

/-! ## The merge step of `main` (lines 274-284) -/

/-- The accumulation loop of `main`: for each run listing, skip it when
its link is already known, otherwise add the link to the known set and
append the entry to both the stored list and the new list. -/
def mergeLoop (stored newE : List JVal) (known : List String) :
    List Listing → List JVal × List JVal × List String
  | [] => (stored, newE, known)
  | l :: ls =>
    if l.link ∈ known then mergeLoop stored newE known ls
    else
      mergeLoop (stored ++ [l.to_dict]) (newE ++ [l.to_dict])
        (l.link :: known) ls

/-- The store-merge portion of `main`: load the store, fold the run's
listings through `mergeLoop`, and return the entry list passed to
`save_results` together with the list of new entries (printed, and
passed to `send_email_notification` when non-empty). -/
def main_merge (f : FileState) (run : List Listing) : List JVal × List JVal :=
  let loaded := load_existing_results f
  let r := mergeLoop loaded.1 [] loaded.2 run
  (r.1, r.2.1)

/-! ## Notifier (`get_email_settings`, `send_email_notification`) -/

/-- The relevant environment variables; `none` is an unset variable. -/
structure Env where
  emailHost : Option String
  emailPort : Option String
  emailUser : Option String
  emailPassword : Option String
  emailFrom : Option String
  emailTo : Option String
  emailUseTls : Option String
deriving DecidableEq, Repr

/-- The SMTP settings tuple returned by `get_email_settings`. -/
structure EmailSettings where
  host : String
  port : ℤ
  user : String
  password : String
  sender : String
  recipient : String
  useTls : Bool
deriving DecidableEq, Repr

/-- `_bool_from_env` (lines 87-91). -/
def bool_from_env (raw : Option String) (dflt : Bool) : Bool :=
  match raw with
  | none => dflt
  | some r => ["1", "true", "yes", "on"].contains ((pyStrip r).toLower)

/-- `get_email_settings` (lines 94-112).  Note that
`int(os.getenv("EMAIL_PORT", "587"))` runs before the credential
checks, and its `ValueError` is not caught anywhere. -/
def get_email_settings (env : Env) : Except PyErr (Option EmailSettings) := do
  let host := env.emailHost.getD "smtp.gmail.com"
  let port : ℤ ←
    match pyInt (env.emailPort.getD "587") with
    | some n => pure n
    | none => throw PyErr.valueError
  let user := env.emailUser
  let password := env.emailPassword
  let sender0 :=
    match env.emailFrom with
    | some s => some s
    | none => user
  let recipient := env.emailTo
  let use_tls := bool_from_env env.emailUseTls true
  if ¬ pyTruthy user ∨ ¬ pyTruthy password then pure none
  else
    let sender := if ¬ pyTruthy sender0 then user else sender0
    if ¬ pyTruthy recipient then pure none
    else
      pure (some ⟨host, port, user.getD "", password.getD "",
        sender.getD "", recipient.getD "", use_tls⟩)

/-- Whether `send_email_notification` reaches the SMTP block.
`attempted` covers both a successful send and a send failure, which is
caught and logged (lines 136-144); `skipped` means the function
returned before composing the message. -/
inductive NotifyOutcome where
  | skipped
  | attempted
deriving DecidableEq, Repr

/-- `send_email_notification` (lines 115-144): collect the settings
(outside any `try`), then return early when settings are missing or
the listing list is empty. -/
def send_email_notification (env : Env) (listings : List JVal) :
    Except PyErr NotifyOutcome := do
  let settings ← get_email_settings env
  match settings with
  | none => pure NotifyOutcome.skipped
  | some _ =>
    match listings with
    | [] => pure NotifyOutcome.skipped
    | _ :: _ => pure NotifyOutcome.attempted

/-! ## Spec-side definitions

These follow the wording of the specification, for comparison with the
definitions above (which are translated from the source). -/

/-- Spec wording (§4.5): the run listings whose links are not already
known, first occurrence within the run winning, in the order
encountered, as store entries. -/
def specNewEntries (known : List String) : List Listing → List JVal
  | [] => []
  | l :: ls =>
    if l.link ∈ known then specNewEntries known ls
    else l.to_dict :: specNewEntries (l.link :: known) ls

/-- The known-link set after the merge step. -/
def specNewKnown (known : List String) : List Listing → List String
  | [] => known
  | l :: ls =>
    if l.link ∈ known then specNewKnown known ls
    else specNewKnown (l.link :: known) ls

/-- Spec wording (§4.3 Load): deduplicate by `link`, first occurrence
wins, dropping entries that are not objects or lack a non-empty string
`link`. -/
def specDedupByLink (seen : List String) : List JVal → List JVal
  | [] => []
  | e :: rest =>
    match entryLink e with
    | some l =>
      if l ≠ "" ∧ l ∉ seen then e :: specDedupByLink (l :: seen) rest
      else specDedupByLink seen rest
    | none => specDedupByLink seen rest

/-- Claim wording (C2): the parse of the hidden numeric price field,
when that field is present with non-blank text that parses. -/
def hiddenParsed (hidden : Option String) : Option ℚ :=
  match hidden with
  | none => none
  | some h0 =>
    let s := pyStrip h0
    if s = "" then none else pyFloat (dropCommas s)

/-- Claim wording (C2): the parse of the last whitespace-separated
token of the visible price string after stripping currency symbols and
thousands separators. -/
def visibleLastToken (visible : Option String) : Option ℚ :=
  match visible with
  | none => none
  | some v0 =>
    let s := pyStrip v0
    if s = "" then none
    else
      match (pySplitWs (stripCurrency s)).getLast? with
      | none => none
      | some tok => pyFloat (String.mk tok)

/-- Claim wording (C2): the resolved price value of a tile — the
hidden parse when available, otherwise the visible last-token parse. -/
def specResolved (t : Tile) : Option ℚ :=
  match hiddenParsed t.hidden with
  | some v => some v
  | none => visibleLastToken t.visible

/-! ## Lemmas -/

/-- Unfolding of the merge loop: the stored and new accumulators both
receive exactly `specNewEntries known run`, and the known set becomes
`specNewKnown known run`. -/
theorem mergeLoop_eq (run : List Listing) :
    ∀ stored newE known,
      mergeLoop stored newE known run =
        (stored ++ specNewEntries known run,
         newE ++ specNewEntries known run,
         specNewKnown known run) := by
  induction run with
  | nil => intro stored newE known; simp [mergeLoop, specNewEntries, specNewKnown]
  | cons l ls ih =>
    intro stored newE known
    by_cases h : l.link ∈ known
    · simp [mergeLoop, specNewEntries, specNewKnown, h, ih]
    · simp [mergeLoop, specNewEntries, specNewKnown, h, ih]

/-- The implementation's dedup loop computes the spec-side dedup. -/
theorem dedupLoop_fst_eq (data : List JVal) :
    ∀ seen, (dedupLoop data seen).1 = specDedupByLink seen data := by
  induction data with
  | nil => intro seen; simp [dedupLoop, specDedupByLink]
  | cons e rest ih =>
    intro seen
    cases hl : entryLink e with
    | none => simp [dedupLoop, specDedupByLink, hl, ih]
    | some l =>
      by_cases h : l = "" ∨ l ∈ seen
      · have h' : ¬ (l ≠ "" ∧ l ∉ seen) := by tauto
        simp only [dedupLoop, specDedupByLink, hl, if_pos h, if_neg h']
        exact ih seen
      · have h' : l ≠ "" ∧ l ∉ seen := by tauto
        simp only [dedupLoop, specDedupByLink, hl, if_neg h, if_pos h']
        simp [ih]

/-- The link set returned by the dedup loop is the links of the kept
entries (reversed, since it is built by consing) on top of the links
already seen. -/
theorem dedupLoop_snd_eq (data : List JVal) :
    ∀ seen, (dedupLoop data seen).2 =
      ((dedupLoop data seen).1.filterMap entryLink).reverse ++ seen := by
  induction data with
  | nil => intro seen; simp [dedupLoop]
  | cons e rest ih =>
    intro seen
    cases hl : entryLink e with
    | none => simp [dedupLoop, hl, ih]
    | some l =>
      by_cases h : l = "" ∨ l ∈ seen
      · simp [dedupLoop, hl, if_pos h, ih]
      · simp only [dedupLoop, hl, if_neg h]
        simp [ih, hl]

/-- Every entry kept by the dedup loop is an object with a non-empty
string link that was not already seen. -/
theorem dedupLoop_mem_valid (data : List JVal) :
    ∀ seen e, e ∈ (dedupLoop data seen).1 →
      ∃ l, entryLink e = some l ∧ l ≠ "" ∧ l ∉ seen := by
  induction data with
  | nil => intro seen e he; simp [dedupLoop] at he
  | cons e0 rest ih =>
    intro seen e he
    cases hl : entryLink e0 with
    | none =>
      simp only [dedupLoop, hl] at he
      exact ih seen e he
    | some l =>
      simp only [dedupLoop, hl] at he
      by_cases h : l = "" ∨ l ∈ seen
      · rw [if_pos h] at he
        exact ih seen e he
      · rw [if_neg h] at he
        push_neg at h
        rcases List.mem_cons.mp he with rfl | hmem
        · exact ⟨l, hl, h.1, h.2⟩
        · obtain ⟨l', hl', hne, hnotin⟩ := ih (l :: seen) e hmem
          exact ⟨l', hl', hne, fun hc => hnotin (List.mem_cons_of_mem _ hc)⟩

/-- The entries kept by the dedup loop have pairwise distinct links. -/
theorem dedupLoop_links_nodup (data : List JVal) :
    ∀ seen, ((dedupLoop data seen).1.map entryLink).Nodup := by
  induction data with
  | nil => intro seen; simp [dedupLoop]
  | cons e0 rest ih =>
    intro seen
    cases hl : entryLink e0 with
    | none => simp only [dedupLoop, hl]; exact ih seen
    | some l =>
      simp only [dedupLoop, hl]
      by_cases h : l = "" ∨ l ∈ seen
      · rw [if_pos h]; exact ih seen
      · rw [if_neg h]
        simp only [List.map_cons, List.nodup_cons]
        refine ⟨?_, ih (l :: seen)⟩
        intro hmem
        obtain ⟨e, he, heq⟩ := List.mem_map.mp hmem
        obtain ⟨l', hl', _, hnotin⟩ := dedupLoop_mem_valid rest (l :: seen) e he
        rw [hl', hl, Option.some.injEq] at heq
        subst heq
        exact hnotin (List.mem_cons_self _ _)

/-- Reloading a list of entries that are all valid (objects with
non-empty string links not in `seen`) and pairwise distinct keeps them
unchanged. -/
theorem dedupLoop_id (es : List JVal) :
    ∀ seen,
      (∀ e ∈ es, ∃ l, entryLink e = some l ∧ l ≠ "" ∧ l ∉ seen) →
      ((es.map entryLink).Nodup) →
      dedupLoop es seen = (es, (es.filterMap entryLink).reverse ++ seen) := by
  induction es with
  | nil => intro seen _ _; simp [dedupLoop]
  | cons e rest ih =>
    intro seen hvalid hnodup
    obtain ⟨l, hl, hne, hnotin⟩ := hvalid e (List.mem_cons_self e rest)
    simp only [dedupLoop, hl]
    rw [if_neg (show ¬ (l = "" ∨ l ∈ seen) by tauto)]
    simp only [List.map_cons, List.nodup_cons] at hnodup
    have hrest : ∀ e' ∈ rest, ∃ l', entryLink e' = some l' ∧ l' ≠ "" ∧
        l' ∉ l :: seen := by
      intro e' he'
      obtain ⟨l', hl', hne', hnotin'⟩ :=
        hvalid e' (List.mem_cons_of_mem _ he')
      refine ⟨l', hl', hne', ?_⟩
      intro hc
      rcases List.mem_cons.mp hc with rfl | hc'
      · exact hnodup.1 (List.mem_map.mpr ⟨e', he', by rw [hl', hl]⟩)
      · exact hnotin' hc'
    rw [ih (l :: seen) hrest hnodup.2]
    simp [hl]

/-- The serialized form of a listing carries its link. -/
theorem entryLink_to_dict (l : Listing) : entryLink l.to_dict = some l.link := by
  rfl

/-- Every new entry comes from a run listing whose link was not yet
known. -/
theorem specNewEntries_mem (run : List Listing) :
    ∀ known e, e ∈ specNewEntries known run →
      ∃ l, l ∈ run ∧ e = l.to_dict ∧ l.link ∉ known := by
  induction run with
  | nil => intro known e he; simp [specNewEntries] at he
  | cons l ls ih =>
    intro known e he
    by_cases h : l.link ∈ known
    · rw [specNewEntries, if_pos h] at he
      obtain ⟨m, hm, rfl, hnot⟩ := ih known e he
      exact ⟨m, List.mem_cons_of_mem _ hm, rfl, hnot⟩
    · rw [specNewEntries, if_neg h] at he
      rcases List.mem_cons.mp he with rfl | hmem
      · exact ⟨l, List.mem_cons_self l ls, rfl, h⟩
      · obtain ⟨m, hm, rfl, hnot⟩ := ih (l.link :: known) e hmem
        exact ⟨m, List.mem_cons_of_mem _ hm, rfl,
          fun hc => hnot (List.mem_cons_of_mem _ hc)⟩

/-- The new entries appended by one run have pairwise distinct links. -/
theorem specNewEntries_links_nodup (run : List Listing) :
    ∀ known, ((specNewEntries known run).map entryLink).Nodup := by
  induction run with
  | nil => intro known; simp [specNewEntries]
  | cons l ls ih =>
    intro known
    by_cases h : l.link ∈ known
    · rw [specNewEntries, if_pos h]; exact ih known
    · rw [specNewEntries, if_neg h]
      simp only [List.map_cons, List.nodup_cons]
      refine ⟨?_, ih (l.link :: known)⟩
      intro hmem
      obtain ⟨e, he, heq⟩ := List.mem_map.mp hmem
      obtain ⟨m, _, rfl, hnot⟩ := specNewEntries_mem ls (l.link :: known) e he
      rw [entryLink_to_dict, entryLink_to_dict, Option.some.injEq] at heq
      exact hnot (heq ▸ List.mem_cons_self _ _)

/-- After the merge, the link of every run listing is either already
known or among the links of the new entries. -/
theorem run_link_known_or_new (run : List Listing) :
    ∀ known l, l ∈ run →
      l.link ∈ known ∨
        l.link ∈ (specNewEntries known run).filterMap entryLink := by
  induction run with
  | nil => intro known l hl; simp at hl
  | cons m ms ih =>
    intro known l hl
    by_cases h : m.link ∈ known
    · rw [specNewEntries, if_pos h]
      rcases List.mem_cons.mp hl with rfl | hmem
      · exact Or.inl h
      · exact ih known l hmem
    · rw [specNewEntries, if_neg h]
      rcases List.mem_cons.mp hl with rfl | hmem
      · refine Or.inr ?_
        simp [List.filterMap_cons, entryLink_to_dict]
      · rcases ih (m.link :: known) l hmem with hk | hnew
        · rcases List.mem_cons.mp hk with heq | hk'
          · refine Or.inr ?_
            simp [List.filterMap_cons, entryLink_to_dict, heq]
          · exact Or.inl hk'
        · refine Or.inr ?_
          rw [List.filterMap_cons, entryLink_to_dict]
          exact List.mem_cons_of_mem _ hnew

/-- When every run link is already known, no new entries are produced. -/
theorem specNewEntries_nil (run : List Listing) :
    ∀ known, (∀ l ∈ run, l.link ∈ known) → specNewEntries known run = [] := by
  induction run with
  | nil => intro known _; rfl
  | cons l ls ih =>
    intro known hall
    rw [specNewEntries, if_pos (hall l (List.mem_cons_self l ls))]
    exact ih known (fun m hm => hall m (List.mem_cons_of_mem _ hm))

/-! Evaluation equations for `read_price_value`, one per control path. -/

/-- Both price elements absent: no text, no value, no exception. -/
theorem read_eval_none_none : read_price_value none none = .ok (none, none) :=
  rfl

/-- A hidden element whose stripped text is blank contributes nothing:
reading proceeds exactly as if the element were absent. -/
theorem read_eval_hidden_blank (h0 : String) (hh : pyStrip h0 = "")
    (visible : Option String) :
    read_price_value (some h0) visible = read_price_value none visible := by
  cases visible <;>
    simp [read_price_value, bind, Except.bind, pure, Except.pure, hh]

/-- A hidden element with non-blank parseable text is authoritative:
the visible text is still recorded but never parsed. -/
theorem read_eval_hidden_parsed (h0 : String) (hh : pyStrip h0 ≠ "")
    (v : ℚ) (hf : pyFloat (dropCommas (pyStrip h0)) = some v)
    (visible : Option String) :
    read_price_value (some h0) visible =
      .ok (visible.map pyStrip, some v) := by
  cases visible <;>
    simp [read_price_value, bind, Except.bind, pure, Except.pure, hh, hf]

/-- A non-blank hidden price text that does not parse raises
`ValueError` (only `NoSuchElementException` is caught around the hidden
lookup). -/
theorem read_eval_hidden_unparseable (h0 : String) (hh : pyStrip h0 ≠ "")
    (hf : pyFloat (dropCommas (pyStrip h0)) = none)
    (visible : Option String) :
    read_price_value (some h0) visible = .error PyErr.valueError := by
  cases visible <;>
    simp [read_price_value, bind, Except.bind, pure, Except.pure, hh, hf]

/-- No hidden value and a blank visible text: no value. -/
theorem read_eval_vis_blank (v0 : String) (hv : pyStrip v0 = "") :
    read_price_value none (some v0) = .ok (some (pyStrip v0), none) := by
  simp [read_price_value, bind, Except.bind, pure, Except.pure, hv]

/-- No hidden value and a visible text with no token after stripping
currency symbols: the text is recorded but no value is resolved. -/
theorem read_eval_vis_no_token (v0 : String) (hv : pyStrip v0 ≠ "")
    (hlast : (pySplitWs (stripCurrency (pyStrip v0))).getLast? = none) :
    read_price_value none (some v0) = .ok (some (pyStrip v0), none) := by
  simp [read_price_value, bind, Except.bind, pure, Except.pure, hv, hlast]

/-- No hidden value: the last visible token is parsed; success yields
its value and failure raises `ValueError`. -/
theorem read_eval_vis_token (v0 : String) (hv : pyStrip v0 ≠ "")
    (tok : List Char)
    (hlast : (pySplitWs (stripCurrency (pyStrip v0))).getLast? = some tok) :
    read_price_value none (some v0) =
      (match pyFloat (String.mk tok) with
       | some w => .ok (some (pyStrip v0), some w)
       | none => .error PyErr.valueError) := by
  simp only [read_price_value, bind, Except.bind, pure, Except.pure, hv, hlast,
    ne_eq, not_false_eq_true, and_self, if_true, if_pos]
  cases pyFloat (String.mk tok) <;> rfl

/-- When price reading with no hidden element succeeds, the value is
the claim-side visible last-token parse. -/
theorem read_none_ok_resolved (visible : Option String)
    (pt : Option String) (pv : Option ℚ)
    (h : read_price_value none visible = .ok (pt, pv)) :
    pv = visibleLastToken visible := by
  cases visible with
  | none =>
    rw [read_eval_none_none] at h
    cases h
    rfl
  | some v0 =>
    by_cases hv : pyStrip v0 = ""
    · rw [read_eval_vis_blank v0 hv] at h
      cases h
      simp [visibleLastToken, hv]
    · cases hlast : (pySplitWs (stripCurrency (pyStrip v0))).getLast? with
      | none =>
        rw [read_eval_vis_no_token v0 hv hlast] at h
        cases h
        simp [visibleLastToken, hv, hlast]
      | some tok =>
        rw [read_eval_vis_token v0 hv tok hlast] at h
        cases hf : pyFloat (String.mk tok) with
        | none => rw [hf] at h; cases h
        | some w =>
          rw [hf] at h
          cases h
          simp [visibleLastToken, hv, hlast, hf]

/-- When price reading succeeds, the numeric result is exactly the
claim-side resolution: the hidden parse if available, otherwise the
visible last-token parse. -/
theorem read_ok_resolved (hidden visible : Option String)
    (pt : Option String) (pv : Option ℚ)
    (h : read_price_value hidden visible = .ok (pt, pv)) :
    pv = (match hiddenParsed hidden with
          | some v => some v
          | none => visibleLastToken visible) := by
  cases hidden with
  | none =>
    simp only [hiddenParsed]
    exact read_none_ok_resolved visible pt pv h
  | some h0 =>
    by_cases hh : pyStrip h0 = ""
    · rw [read_eval_hidden_blank h0 hh] at h
      simp only [hiddenParsed, hh, if_pos rfl]
      exact read_none_ok_resolved visible pt pv h
    · cases hf : pyFloat (dropCommas (pyStrip h0)) with
      | none => rw [read_eval_hidden_unparseable h0 hh hf] at h; cases h
      | some v =>
        rw [read_eval_hidden_parsed h0 hh v hf] at h
        cases h
        simp [hiddenParsed, hh, hf]

/-- Price reading never raises a lookup error: both `find_element`
calls inside `_read_price_value` are guarded by
`except NoSuchElementException`. -/
theorem read_no_lookup_error (hidden visible : Option String) :
    read_price_value hidden visible ≠ .error PyErr.noSuchElement := by
  have hnone : ∀ v : Option String,
      read_price_value none v ≠ .error PyErr.noSuchElement := by
    intro v
    cases v with
    | none => rw [read_eval_none_none]; simp
    | some v0 =>
      by_cases hv : pyStrip v0 = ""
      · rw [read_eval_vis_blank v0 hv]; simp
      · cases hlast : (pySplitWs (stripCurrency (pyStrip v0))).getLast? with
        | none => rw [read_eval_vis_no_token v0 hv hlast]; simp
        | some tok =>
          rw [read_eval_vis_token v0 hv tok hlast]
          cases hf : pyFloat (String.mk tok) <;> simp [hf]
  cases hidden with
  | none => exact hnone visible
  | some h0 =>
    by_cases hh : pyStrip h0 = ""
    · rw [read_eval_hidden_blank h0 hh]; exact hnone visible
    · cases hf : pyFloat (dropCommas (pyStrip h0)) with
      | none => rw [read_eval_hidden_unparseable h0 hh hf]; simp
      | some v => rw [read_eval_hidden_parsed h0 hh v hf]; simp

/-- A tile whose price resolves to anything other than exactly `0`
yields no listing, whatever its link and title sub-elements hold. -/
theorem extract_ok_nonzero (t : Tile) (pt : Option String) (pv : Option ℚ)
    (hr : read_price_value t.hidden t.visible = .ok (pt, pv))
    (hnz : pv ≠ some 0) :
    extract_listing_info t = .ok none := by
  simp only [extract_listing_info, hr, bind, Except.bind]
  rw [if_pos (Or.inr hnz)]
  rfl

/-- A tile whose price resolves to exactly `0` proceeds to the link and
title lookups, each raising a lookup error when the sub-element is
absent. -/
theorem extract_ok_zero (t : Tile) (pt : Option String)
    (hr : read_price_value t.hidden t.visible = .ok (pt, some 0)) :
    extract_listing_info t =
      (match t.linkHref with
       | none => .error PyErr.noSuchElement
       | some href =>
         match t.titleText with
         | none => .error PyErr.noSuchElement
         | some ttl => .ok (some ⟨pyStrip ttl, displayedPrice pt, href⟩)) := by
  simp only [extract_listing_info, hr, bind, Except.bind]
  rw [if_neg (by simp)]
  cases t.linkHref with
  | none => rfl
  | some href => cases t.titleText <;> rfl

/-- An exception raised while reading the price propagates out of
`extract_listing_info`. -/
theorem extract_read_error (t : Tile) (e : PyErr)
    (hr : read_price_value t.hidden t.visible = .error e) :
    extract_listing_info t = .error e := by
  simp only [extract_listing_info, hr, bind, Except.bind]

/-- An exception from one tile aborts the whole extraction loop, as
long as the tiles before it extract without raising. -/
theorem extract_all_append_error (pre : List Tile)
    (hpre : ∀ t' ∈ pre, ∃ r, extract_listing_info t' = .ok r)
    (t : Tile) (e : PyErr) (he : extract_listing_info t = .error e)
    (post : List Tile) :
    extract_all (pre ++ t :: post) = .error e := by
  induction pre with
  | nil => simp [extract_all, he, bind, Except.bind]
  | cons t' pre' ih =>
    obtain ⟨r, hr⟩ := hpre t' (List.mem_cons_self t' pre')
    have ih' := ih (fun u hu => hpre u (List.mem_cons_of_mem _ hu))
    simp [extract_all, hr, bind, Except.bind, ih']

/-- The known-links set returned by loading is exactly the set of
links of the loaded entries. -/
theorem load_links_eq (f : FileState) :
    (load_existing_results f).2 =
      ((load_existing_results f).1.filterMap entryLink).reverse := by
  cases f with
  | missing => rfl
  | unreadable => rfl
  | invalid => rfl
  | content j =>
    cases j with
    | arr data =>
      simpa using dedupLoop_snd_eq data []
    | null => rfl
    | bool b => rfl
    | num q => rfl
    | str s => rfl
    | obj fields => rfl

/-- Every loaded entry is an object with a non-empty string link. -/
theorem load_mem_valid (f : FileState) (e : JVal)
    (he : e ∈ (load_existing_results f).1) :
    ∃ l, entryLink e = some l ∧ l ≠ "" := by
  cases f with
  | missing => simp [load_existing_results] at he
  | unreadable => simp [load_existing_results] at he
  | invalid => simp [load_existing_results] at he
  | content j =>
    cases j with
    | arr data =>
      obtain ⟨l, hl, hne, _⟩ := dedupLoop_mem_valid data [] e he
      exact ⟨l, hl, hne⟩
    | null => simp [load_existing_results] at he
    | bool b => simp [load_existing_results] at he
    | num q => simp [load_existing_results] at he
    | str s => simp [load_existing_results] at he
    | obj fields => simp [load_existing_results] at he

/-- Loaded entries have pairwise distinct links. -/
theorem load_nodup (f : FileState) :
    ((load_existing_results f).1.map entryLink).Nodup := by
  cases f with
  | missing => simp [load_existing_results]
  | unreadable => simp [load_existing_results]
  | invalid => simp [load_existing_results]
  | content j =>
    cases j with
    | arr data => exact dedupLoop_links_nodup data []
    | null => simp [load_existing_results]
    | bool b => simp [load_existing_results]
    | num q => simp [load_existing_results]
    | str s => simp [load_existing_results]
    | obj fields => simp [load_existing_results]

/-- The merge step in terms of the loaded store: the saved entries are
the loaded entries followed by the new ones, and the new ones are
`specNewEntries`. -/
theorem main_merge_eq (f : FileState) (run : List Listing) :
    main_merge f run =
      ((load_existing_results f).1 ++
         specNewEntries (load_existing_results f).2 run,
       specNewEntries (load_existing_results f).2 run) := by
  simp [main_merge, mergeLoop_eq]

/-- The store produced by a run has pairwise distinct links. -/
theorem merged_links_nodup (f : FileState) (run : List Listing) :
    ((main_merge f run).1.map entryLink).Nodup := by
  rw [main_merge_eq]
  rw [List.map_append]
  refine List.Nodup.append (load_nodup f)
    (specNewEntries_links_nodup run _) ?_
  intro x hx hx'
  obtain ⟨e, he, heq⟩ := List.mem_map.mp hx
  obtain ⟨e', he', heq'⟩ := List.mem_map.mp hx'
  obtain ⟨m, _, rfl, hnot⟩ := specNewEntries_mem run _ e' he'
  obtain ⟨l, hl, _⟩ := load_mem_valid f e he
  rw [entryLink_to_dict] at heq'
  rw [hl] at heq
  have hml : m.link = l := by
    have := heq'.trans heq.symm
    exact Option.some.inj this
  apply hnot
  rw [load_links_eq f, List.mem_reverse]
  rw [hml]
  exact List.mem_filterMap.mpr ⟨e, he, hl⟩

/-! ## Claim theorems -/

/-- C1: for every prior store state and every sequence of listings
collected in a run, the merge step of `main` appends to the loaded
store exactly those run listings whose link is not already known
(first occurrence within the run wins), in the order encountered; the
first component is what `save_results` persists, and the second
component — exactly the newly appended entries — is what
`send_email_notification` receives (it is invoked only when this list
is non-empty).  In particular, a store with links A and B merged with a
run carrying links B and C saves links A, B, C and passes exactly the C
entry on. -/
theorem C1_merge_appends_exactly_new :
    (∀ (f : FileState) (run : List Listing),
      main_merge f run =
        ((load_existing_results f).1 ++
           specNewEntries (load_existing_results f).2 run,
         specNewEntries (load_existing_results f).2 run)) ∧
    (main_merge
        (.content (.arr
          [.obj [("title", .str "tA"), ("price", .str "€1.00"),
                 ("link", .str "A")],
           .obj [("title", .str "tB"), ("price", .str "€2.00"),
                 ("link", .str "B")]]))
        [⟨"tB", "€0.00", "B"⟩, ⟨"tC", "€0.00", "C"⟩]).1.map entryLink =
      [some "A", some "B", some "C"] ∧
    (main_merge
        (.content (.arr
          [.obj [("title", .str "tA"), ("price", .str "€1.00"),
                 ("link", .str "A")],
           .obj [("title", .str "tB"), ("price", .str "€2.00"),
                 ("link", .str "B")]]))
        [⟨"tB", "€0.00", "B"⟩, ⟨"tC", "€0.00", "C"⟩]).2 =
      [Listing.to_dict ⟨"tC", "€0.00", "C"⟩] :=
  ⟨main_merge_eq, by rfl, by rfl⟩

/-- C3: link uniqueness is an invariant of the stored collection — the
entry list produced by loading contains no two entries with the same
link, and the merge step preserves this, so the list passed to
`save_results` at the end of every run also contains no two entries
with the same link. -/
theorem C3_link_uniqueness_invariant :
    (∀ f : FileState, ((load_existing_results f).1.map entryLink).Nodup) ∧
    (∀ (f : FileState) (run : List Listing),
      ((main_merge f run).1.map entryLink).Nodup) :=
  ⟨load_nodup, merged_links_nodup⟩

/-- C4: loading the store never raises (the read and parse errors are
all caught, which the embedding reflects by `load_existing_results`
being a total function on `FileState`), and satisfies the
postcondition: a missing, unreadable, or unparseable file, or JSON
content that is not a list, yields the empty collection; a JSON list
yields its entries deduplicated by link, first occurrence retained,
with non-object entries and entries lacking a non-empty string link
dropped. -/
theorem C4_load_postcondition :
    load_existing_results .missing = ([], []) ∧
    load_existing_results .unreadable = ([], []) ∧
    load_existing_results .invalid = ([], []) ∧
    (∀ j : JVal, (∀ items : List JVal, j ≠ .arr items) →
      load_existing_results (.content j) = ([], [])) ∧
    (∀ data : List JVal,
      (load_existing_results (.content (.arr data))).1 =
        specDedupByLink [] data) := by
  refine ⟨rfl, rfl, rfl, ?_, ?_⟩
  · intro j hj
    cases j with
    | arr items => exact absurd rfl (hj items)
    | null => rfl
    | bool b => rfl
    | num q => rfl
    | str s => rfl
    | obj fields => rfl
  · intro data
    exact dedupLoop_fst_eq data []

/-- Witness for C4: a store file holding a non-list JSON value loads as
empty, and a store file with a duplicated link loads deduplicated,
first occurrence first. -/
theorem C4_load_postcondition_witness :
    (∀ items : List JVal, JVal.str "oops" ≠ JVal.arr items) ∧
    load_existing_results (.content (.str "oops")) = ([], []) ∧
    (load_existing_results (.content (.arr
      [.obj [("link", .str "A"), ("title", .str "first")],
       .obj [("link", .str "A"), ("title", .str "second")],
       .obj [("link", .str "B")]]))).1 =
      specDedupByLink []
        [.obj [("link", .str "A"), ("title", .str "first")],
         .obj [("link", .str "A"), ("title", .str "second")],
         .obj [("link", .str "B")]] :=
  ⟨fun _ h => JVal.noConfusion h,
   C4_load_postcondition.2.2.2.1 (.str "oops") (fun _ h => JVal.noConfusion h),
   C4_load_postcondition.2.2.2.2 _⟩

/-- C8 (amended): running the merge twice over the same run listings is
idempotent provided every listing in the run has a non-empty link: the
second run's store equals the first run's store and its new-entry list
is empty (so the notifier is not invoked).  The proviso is forced by
`load_existing_results` dropping entries whose link is the empty
string, which makes a run listing with an empty link be re-appended on
every run (see the counterexample). -/
theorem C8_second_run_idempotent (f : FileState) (run : List Listing)
    (hlink : ∀ l ∈ run, l.link ≠ "") :
    main_merge (save_results (main_merge f run).1) run =
      ((main_merge f run).1, []) := by
  have hmm := main_merge_eq f run
  have h1 : (main_merge f run).1 =
      (load_existing_results f).1 ++
        specNewEntries (load_existing_results f).2 run := by rw [hmm]
  have hvalid : ∀ e ∈ (main_merge f run).1,
      ∃ l, entryLink e = some l ∧ l ≠ "" ∧ l ∉ ([] : List String) := by
    intro e he
    rw [h1] at he
    rcases List.mem_append.mp he with ha | hb
    · obtain ⟨l, hl, hne⟩ := load_mem_valid f e ha
      exact ⟨l, hl, hne, List.not_mem_nil l⟩
    · obtain ⟨m, hm, rfl, _⟩ := specNewEntries_mem run _ e hb
      exact ⟨m.link, entryLink_to_dict m, hlink m hm, List.not_mem_nil _⟩
  have hdl := dedupLoop_id (main_merge f run).1 [] hvalid
    (merged_links_nodup f run)
  have hload2 : load_existing_results (save_results (main_merge f run).1) =
      ((main_merge f run).1,
       ((main_merge f run).1.filterMap entryLink).reverse ++ []) := hdl
  have hknown : ∀ l ∈ run,
      l.link ∈
        (load_existing_results (save_results (main_merge f run).1)).2 := by
    intro l hl
    rw [hload2]
    simp only [List.append_nil, List.mem_reverse]
    rw [h1, List.filterMap_append, List.mem_append]
    rcases run_link_known_or_new run (load_existing_results f).2 l hl
      with hk | hn
    · left
      rw [load_links_eq f, List.mem_reverse] at hk
      exact hk
    · right
      exact hn
  rw [main_merge_eq (save_results (main_merge f run).1) run,
    specNewEntries_nil run _ hknown, hload2]
  simp

/-- Witness for C8: a run with the single link L merged into an empty
store and then re-merged produces no new entries the second time. -/
theorem C8_second_run_idempotent_witness :
    (∀ l ∈ [(⟨"T", "€0.00", "L"⟩ : Listing)], l.link ≠ "") ∧
    main_merge (save_results (main_merge FileState.missing
        [⟨"T", "€0.00", "L"⟩]).1) [⟨"T", "€0.00", "L"⟩] =
      ((main_merge FileState.missing [⟨"T", "€0.00", "L"⟩]).1, []) :=
  ⟨by decide,
   C8_second_run_idempotent FileState.missing [⟨"T", "€0.00", "L"⟩]
     (by decide)⟩

/-- Counterexample for C8 as stated: a listing whose link is the empty
string is appended on the first run, silently dropped when the saved
store is reloaded, and appended again on the second run, which
therefore produces one new entry (and would e-mail it) instead of
zero. -/
theorem C8_counterexample_empty_link :
    (main_merge (save_results (main_merge FileState.missing
        [⟨"T", "€0.00", ""⟩]).1) [⟨"T", "€0.00", ""⟩]).2 =
      [Listing.to_dict ⟨"T", "€0.00", ""⟩] := by
  rfl

/-- C2 (amended): whenever price reading completes without raising,
the resolved value is the parsed hidden field when that field is
present with non-blank parseable text (authoritative, overriding the
visible text), and otherwise the parsed last whitespace-separated
token of the visible price string after stripping currency symbols and
thousands separators; a hidden field present with non-blank but
unparseable text instead raises an uncaught `ValueError` rather than
falling back to the visible text (see the counterexample); a tile with
link and title present is a finding exactly when the resolved value
equals 0.0; and the three concrete examples hold: visible
`"€1,200.00 €0.00"` resolves to 0.0 and is a finding, visible
`"€1,200.00"` alone resolves to 1200.0 and is not a finding, and a
tile with hidden price `"0"` and no visible price is a finding. -/
theorem C2_price_resolution :
    (∀ (hidden visible pt : Option String) (pv : Option ℚ),
      read_price_value hidden visible = .ok (pt, pv) →
      pv = (match hiddenParsed hidden with
            | some v => some v
            | none => visibleLastToken visible)) ∧
    (∀ (visible : Option String) (h0 : String),
      pyStrip h0 ≠ "" → pyFloat (dropCommas (pyStrip h0)) = none →
      read_price_value (some h0) visible = .error PyErr.valueError) ∧
    (∀ (t : Tile) (pt : Option String) (pv : Option ℚ) (lk ti : String),
      read_price_value t.hidden t.visible = .ok (pt, pv) →
      t.linkHref = some lk → t.titleText = some ti →
      ((pv = some 0 →
        extract_listing_info t =
          .ok (some ⟨pyStrip ti, displayedPrice pt, lk⟩)) ∧
       (pv ≠ some 0 → extract_listing_info t = .ok none))) ∧
    extract_listing_info ⟨none, some "€1,200.00 €0.00", some "L", some "T"⟩ =
      .ok (some ⟨"T", "€1,200.00 €0.00", "L"⟩) ∧
    extract_listing_info ⟨none, some "€1,200.00", some "L", some "T"⟩ =
      .ok none ∧
    extract_listing_info ⟨some "0", none, some "L", some "T"⟩ =
      .ok (some ⟨"T", "€0.00", "L"⟩) := by
  refine ⟨?_, ?_, ?_, by decide, by decide, by decide⟩
  · intro hidden visible pt pv h
    exact read_ok_resolved hidden visible pt pv h
  · intro visible h0 hne hf
    exact read_eval_hidden_unparseable h0 hne hf visible
  · intro t pt pv lk ti hr hlk hti
    constructor
    · intro hz
      subst hz
      rw [extract_ok_zero t pt hr, hlk, hti]
    · intro hnz
      exact extract_ok_nonzero t pt pv hr hnz

/-- Witness for C2 (amended): the resolution rule, the `ValueError`
path and the finding gate, each at a concrete input. -/
theorem C2_price_resolution_witness :
    read_price_value none (some "€1,200.00") =
      .ok (some "€1,200.00", some 1200) ∧
    (some (1200 : ℚ) =
      match hiddenParsed none with
      | some v => some v
      | none => visibleLastToken (some "€1,200.00")) ∧
    pyStrip "x" ≠ "" ∧
    pyFloat (dropCommas (pyStrip "x")) = none ∧
    read_price_value (some "x") none = .error PyErr.valueError ∧
    read_price_value (some "0") none = .ok (none, some 0) ∧
    extract_listing_info ⟨some "0", none, some "L", some "T"⟩ =
      .ok (some ⟨pyStrip "T", displayedPrice none, "L"⟩) :=
  ⟨by decide,
   C2_price_resolution.1 none (some "€1,200.00") (some "€1,200.00")
     (some 1200) (by decide),
   by decide, by decide,
   C2_price_resolution.2.1 none "x" (by decide) (by decide),
   by decide,
   (C2_price_resolution.2.2.1 ⟨some "0", none, some "L", some "T"⟩ none
     (some 0) "L" "T" (by decide) rfl rfl).1 rfl⟩

/-- Counterexample for C2 as stated: on a tile whose hidden price text
is present but unparseable (`"x"`) with visible text `"€5.00"`, the
claim prescribes falling back to the visible last token (value 5.0,
not a finding), but `_read_price_value` raises `ValueError` instead,
because `float(hidden_text)` is not guarded against `ValueError`. -/
theorem C2_counterexample_unparseable_hidden :
    hiddenParsed (some "x") = none ∧
    visibleLastToken (some "€5.00") = some 5 ∧
    read_price_value (some "x") (some "€5.00") =
      .error PyErr.valueError := by
  decide

/-- C6 (amended): a tile on which no price value can be determined
without parsing — hidden field absent or blank, and visible price
element absent, blank, or holding no token once currency symbols and
separators are stripped — is skipped: extraction yields no listing and
does not raise.  (When instead an unparseable non-blank hidden text is
present, extraction raises `ValueError` — see the counterexample.) -/
theorem C6_undetermined_price_skipped (t : Tile)
    (hh : t.hidden = none ∨ ∃ h0, t.hidden = some h0 ∧ pyStrip h0 = "")
    (hv : t.visible = none ∨ ∃ v0, t.visible = some v0 ∧
      (pyStrip v0 = "" ∨
        (pySplitWs (stripCurrency (pyStrip v0))).getLast? = none)) :
    extract_listing_info t = .ok none := by
  have hnone : read_price_value none t.visible =
      .ok (t.visible.map pyStrip, none) := by
    rcases hv with h | ⟨v0, hv0, hcase⟩
    · rw [h]
      exact read_eval_none_none
    · rw [hv0]
      by_cases hb : pyStrip v0 = ""
      · rw [read_eval_vis_blank v0 hb]
        rfl
      · rcases hcase with hb' | hnt
        · exact absurd hb' hb
        · rw [read_eval_vis_no_token v0 hb hnt]
          rfl
  have hr : read_price_value t.hidden t.visible =
      .ok (t.visible.map pyStrip, none) := by
    rcases hh with h | ⟨h0, hh0, hb⟩
    · rw [h]
      exact hnone
    · rw [hh0, read_eval_hidden_blank h0 hb]
      exact hnone
  exact extract_ok_nonzero t _ none hr (by simp)

/-- Witness for C6 (amended): a tile whose hidden text is blank and
which has no visible price element is skipped without raising. -/
theorem C6_undetermined_price_skipped_witness :
    (pyStrip " " = "") ∧
    extract_listing_info ⟨some " ", none, none, none⟩ = .ok none :=
  ⟨by decide,
   C6_undetermined_price_skipped ⟨some " ", none, none, none⟩
     (Or.inr ⟨" ", rfl, by decide⟩) (Or.inl rfl)⟩

/-- Counterexample for C6 as stated: a tile with unparseable hidden
text `"abc"` and no visible price has no determinable price value in
the claim's sense, yet extraction raises `ValueError` instead of
skipping the tile. -/
theorem C6_counterexample_unparseable_hidden :
    hiddenParsed (some "abc") = none ∧
    visibleLastToken none = none ∧
    extract_listing_info ⟨some "abc", none, none, none⟩ =
      .error PyErr.valueError := by
  decide

/-- C10: extraction resolves the price before touching any other
sub-element — a tile whose price reading succeeds with a value that is
undetermined or not exactly 0.0 yields no listing whatever its link
and title sub-elements hold (they are never queried), and the uncaught
lookup-error path is reachable only on tiles whose resolved price is
exactly 0.0. -/
theorem C10_price_gate_guards_lookups :
    (∀ (t : Tile) (pt : Option String) (pv : Option ℚ),
      read_price_value t.hidden t.visible = .ok (pt, pv) → pv ≠ some 0 →
      ∀ lk ti : Option String,
        extract_listing_info ⟨t.hidden, t.visible, lk, ti⟩ = .ok none) ∧
    (∀ t : Tile, extract_listing_info t = .error PyErr.noSuchElement →
      ∃ pt, read_price_value t.hidden t.visible = .ok (pt, some 0)) := by
  constructor
  · intro t pt pv hr hnz lk ti
    exact extract_ok_nonzero ⟨t.hidden, t.visible, lk, ti⟩ pt pv hr hnz
  · intro t herr
    cases hr : read_price_value t.hidden t.visible with
    | error e =>
      rw [extract_read_error t e hr] at herr
      injection herr with h3
      subst h3
      exact absurd hr (read_no_lookup_error t.hidden t.visible)
    | ok pr =>
      obtain ⟨pt, pv⟩ := pr
      by_cases hz : pv = some 0
      · subst hz
        exact ⟨pt, rfl⟩
      · rw [extract_ok_nonzero t pt pv hr hz] at herr
        cases herr

/-- Witness for C10: a tile with hidden price 5 yields no listing even
with the link present and the title absent, and the tile with hidden
price 0 and no link that raises the lookup error indeed has resolved
price 0. -/
theorem C10_price_gate_guards_lookups_witness :
    read_price_value (some "5") none = .ok (none, some 5) ∧
    extract_listing_info ⟨some "5", none, some "L", none⟩ = .ok none ∧
    extract_listing_info ⟨some "0", none, none, none⟩ =
      .error PyErr.noSuchElement ∧
    (∃ pt, read_price_value (some "0") none = .ok (pt, some 0)) :=
  ⟨by decide,
   C10_price_gate_guards_lookups.1 ⟨some "5", none, none, none⟩ none
     (some 5) (by decide) (by decide) (some "L") none,
   by decide,
   C10_price_gate_guards_lookups.2 ⟨some "0", none, none, none⟩
     (by decide)⟩

/-- C5 (amended): a timeout or browser-level error raised by the
navigation call itself (`driver.get`) is recovered locally — the fetch
returns an empty result for that URL and the run continues with the
remaining URLs exactly as if the URL were absent.  (A timeout while
waiting for the listings container after a successful navigation is
outside the `try` block and propagates, aborting the run — see the
counterexample.) -/
theorem C5_nav_failure_recovered (p : PageLoad) (ps : List PageLoad)
    (h : p.nav = NavOutcome.timeout ∨ p.nav = NavOutcome.navError) :
    collect_free_listings_on_url p = .ok [] ∧
    runCollect (p :: ps) = runCollect ps := by
  have hc : collect_free_listings_on_url p = .ok [] := by
    rcases h with h | h <;>
      simp [collect_free_listings_on_url, h, pure, Except.pure]
  refine ⟨hc, ?_⟩
  cases hr : runCollect ps with
  | error e => simp [runCollect, hc, hr, bind, Except.bind]
  | ok r =>
    simp [runCollect, hc, hr, bind, Except.bind, pure, Except.pure]

/-- Witness for C5 (amended): a navigation timeout on the first URL
leaves the run producing exactly what the remaining URLs produce. -/
theorem C5_nav_failure_recovered_witness :
    ((⟨NavOutcome.timeout, true, []⟩ : PageLoad).nav = NavOutcome.timeout ∨
      (⟨NavOutcome.timeout, true, []⟩ : PageLoad).nav = NavOutcome.navError) ∧
    collect_free_listings_on_url ⟨NavOutcome.timeout, true, []⟩ = .ok [] ∧
    runCollect [⟨NavOutcome.timeout, true, []⟩, ⟨NavOutcome.ok, true, []⟩] =
      runCollect [⟨NavOutcome.ok, true, []⟩] :=
  ⟨Or.inl rfl,
   (C5_nav_failure_recovered ⟨NavOutcome.timeout, true, []⟩
     [⟨NavOutcome.ok, true, []⟩] (Or.inl rfl)).1,
   (C5_nav_failure_recovered ⟨NavOutcome.timeout, true, []⟩
     [⟨NavOutcome.ok, true, []⟩] (Or.inl rfl)).2⟩

/-- Counterexample for C5 as stated: when navigation succeeds but the
listings container never appears, the `TimeoutException` raised by
`wait_for_listings` — a browser-level failure while fetching that URL —
is not caught (the `try` in `collect_free_listings_on_url` covers only
`driver.get`): the fetch does not return an empty result and the run
does not continue with the remaining URLs. -/
theorem C5_counterexample_wait_timeout :
    collect_free_listings_on_url ⟨NavOutcome.ok, false, []⟩ =
      .error PyErr.timeoutException ∧
    runCollect [⟨NavOutcome.ok, false, []⟩, ⟨NavOutcome.ok, true, []⟩] =
      .error PyErr.timeoutException := by
  decide

/-- C7: on a qualifying (zero-price) tile whose link or title
sub-element is absent, extraction raises a lookup error
(`NoSuchElementException`) that propagates uncaught, terminating
extraction for the whole containing page: the page's collect call
returns that error rather than any listings, provided the tiles before
the bad one extract without raising. -/
theorem C7_missing_sub_element_aborts_page (t : Tile) (pt : Option String)
    (hq : read_price_value t.hidden t.visible = .ok (pt, some 0))
    (hmiss : t.linkHref = none ∨ t.titleText = none) :
    extract_listing_info t = .error PyErr.noSuchElement ∧
    ∀ pre post : List Tile,
      (∀ u ∈ pre, ∃ r, extract_listing_info u = .ok r) →
      collect_free_listings_on_url ⟨NavOutcome.ok, true, pre ++ t :: post⟩ =
        .error PyErr.noSuchElement := by
  have hext : extract_listing_info t = .error PyErr.noSuchElement := by
    rw [extract_ok_zero t pt hq]
    rcases hmiss with h | h
    · rw [h]
    · cases hlk : t.linkHref with
      | none => rfl
      | some href => rw [h]
  refine ⟨hext, ?_⟩
  intro pre post hpre
  show extract_all (pre ++ t :: post) = .error PyErr.noSuchElement
  exact extract_all_append_error pre hpre t _ hext post

/-- Witness for C7: a tile with hidden price 0 and no link sub-element
raises the lookup error and aborts its page's extraction. -/
theorem C7_missing_sub_element_aborts_page_witness :
    read_price_value (some "0") none = .ok (none, some 0) ∧
    ((⟨some "0", none, none, some "T"⟩ : Tile).linkHref = none ∨
      (⟨some "0", none, none, some "T"⟩ : Tile).titleText = none) ∧
    extract_listing_info ⟨some "0", none, none, some "T"⟩ =
      .error PyErr.noSuchElement ∧
    collect_free_listings_on_url
        ⟨NavOutcome.ok, true, [⟨some "0", none, none, some "T"⟩]⟩ =
      .error PyErr.noSuchElement :=
  ⟨by decide, Or.inl rfl,
   (C7_missing_sub_element_aborts_page ⟨some "0", none, none, some "T"⟩
     none (by decide) (Or.inl rfl)).1,
   (C7_missing_sub_element_aborts_page ⟨some "0", none, none, some "T"⟩
     none (by decide) (Or.inl rfl)).2 [] []
     (fun u hu => absurd hu (List.not_mem_nil u))⟩

/-- C9 (amended): with a non-empty list of new entries, when
`EMAIL_USER` or `EMAIL_PASSWORD` is unset or blank, or the recipient
`EMAIL_TO` is unset or blank, notification is silently skipped — no
SMTP send is attempted and no error is raised — provided `EMAIL_PORT`,
when set, parses as an integer.  The proviso is forced by
`int(os.getenv("EMAIL_PORT", "587"))` running before the credential
checks with its `ValueError` uncaught (see the counterexample). -/
theorem C9_missing_config_skips (env : Env) (listings : List JVal)
    (hne : listings ≠ [])
    (hport : (pyInt (env.emailPort.getD "587")).isSome)
    (hmiss : pyTruthy env.emailUser = false ∨
      pyTruthy env.emailPassword = false ∨ pyTruthy env.emailTo = false) :
    send_email_notification env listings = .ok NotifyOutcome.skipped := by
  obtain ⟨n, hn⟩ := Option.isSome_iff_exists.mp hport
  have hget : get_email_settings env = .ok none := by
    simp only [get_email_settings, hn, bind, Except.bind, pure, Except.pure]
    rcases hmiss with h | h | h
    · rw [if_pos (Or.inl (by simp [h]))]
    · rw [if_pos (Or.inr (by simp [h]))]
    · by_cases hup : ¬ pyTruthy env.emailUser = true ∨
          ¬ pyTruthy env.emailPassword = true
      · rw [if_pos hup]
      · rw [if_neg hup, if_pos (by simp [h])]
  cases listings with
  | nil => exact absurd rfl hne
  | cons a as =>
    simp [send_email_notification, hget, bind, Except.bind, pure,
      Except.pure]

/-- Witness for C9 (amended): one new entry, `EMAIL_USER` unset and
`EMAIL_PORT` unset (so the default `"587"` parses): the notification is
skipped without error. -/
theorem C9_missing_config_skips_witness :
    ([JVal.null] ≠ ([] : List JVal)) ∧
    (pyInt ((none : Option String).getD "587")).isSome = true ∧
    (pyTruthy none = false ∨ pyTruthy none = false ∨
      pyTruthy none = false) ∧
    send_email_notification ⟨none, none, none, none, none, none, none⟩
        [JVal.null] = .ok NotifyOutcome.skipped :=
  ⟨by simp, by decide, Or.inl rfl,
   C9_missing_config_skips ⟨none, none, none, none, none, none, none⟩
     [JVal.null] (by simp) (by decide) (Or.inl rfl)⟩

/-- Counterexample for C9 as stated: with `EMAIL_PORT` set to the
unparseable string `"x"` and `EMAIL_USER` unset,
`send_email_notification` raises `ValueError` (from
`int(os.getenv("EMAIL_PORT", "587"))`, evaluated before the credential
check) instead of silently skipping. -/
theorem C9_counterexample_bad_port :
    send_email_notification ⟨none, some "x", none, none, none, none, none⟩
      [JVal.null] = .error PyErr.valueError := by
  rfl

end SolarCrawler
